import Mathlib

/-!
Verification development for the cookie-isle repository.

Shallow embedding of the checkout pricing engine, the cart store, the
newsletter unsubscribe token service, the Stripe webhook handler, the
session-creation origin check, and the calendar slot parser.

Conventions of the embedding:
* JS numbers used for money/quantities are modelled as `Int` where the code
  works in integer cents/counts, and as `ℚ` where the code works in decimal
  dollars (the floating-point computations of the source are modelled by
  exact rational arithmetic, performed in the same order as the source).
* JS strings are Lean `String`s; string helpers that must evaluate inside
  the kernel are implemented over `List Char` by structural recursion.
* Platform primitives (Web Crypto / Apps Script HMAC, the HTTP fetch, the
  platform `Date` object) are modelled as explicit parameters or abstract
  encodings, noted at each definition.
-/

/- ===================== Cart store (src/static/js/cart.js) ===================== -/

/-- Model of a cart line item as stored by `cart.js`: `{product, price_cents,
qty, price_id}`. `price_id` is `none` when the JS field is `null`. -/
structure CartItem where
  product : String
  price_cents : Int
  qty : Int
  price_id : Option String
deriving DecidableEq

/-- The cart is the `items` array held in localStorage. -/
abbrev Cart := List CartItem

/-- Embedding of `getCartTotalCents` (cart.js:209-214): sum of
`price_cents * qty` over all lines, via `reduce` with initial value 0. -/
def getCartTotalCents (cart : Cart) : Int :=
  cart.foldl (fun total it => total + it.price_cents * it.qty) 0

/-- Helper modelling an in-place mutation of the first array element whose
`product` matches (JS `findIndex` / `find` followed by field assignment). -/
def updateFirst (product : String) (f : CartItem → CartItem) : Cart → Cart
  | [] => []
  | it :: rest =>
    if it.product = product then f it :: rest else it :: updateFirst product f rest

/-- Embedding of `addToCart` (cart.js:109-132): if a line with the same
product exists, add `qty` to it and backfill a missing `price_id`;
otherwise push a new line. -/
def addToCart (product : String) (priceCents : Int) (qty : Int)
    (priceId : Option String) (cart : Cart) : Cart :=
  if cart.any (fun it => it.product = product) then
    updateFirst product (fun it =>
      { it with
        qty := it.qty + qty
        price_id :=
          match priceId, it.price_id with
          | some pid, none => some pid
          | _, _ => it.price_id }) cart
  else
    cart ++ [{ product := product, price_cents := priceCents, qty := qty,
               price_id := priceId }]

/-- Embedding of `removeFromCart` (cart.js:139-144): filter out every line
whose product matches. -/
def removeFromCart (product : String) (cart : Cart) : Cart :=
  cart.filter (fun it => it.product ≠ product)

/-- Embedding of `updateQuantity` (cart.js:152-166): `qty ≤ 0` removes the
line, otherwise the first matching line's quantity is overwritten (a missing
product leaves the cart unchanged). -/
def updateQuantity (product : String) (qty : Int) (cart : Cart) : Cart :=
  if qty ≤ 0 then removeFromCart product cart
  else updateFirst product (fun it => { it with qty := qty }) cart

/-- Embedding of `incrementQuantity` (cart.js:173-183): `find` the line and
add 1 to its quantity; no-op when absent. -/
def incrementQuantity (product : String) (cart : Cart) : Cart :=
  match cart.find? (fun it => it.product = product) with
  | none => cart
  | some _ => updateFirst product (fun it => { it with qty := it.qty + 1 }) cart

/-- Embedding of `decrementQuantity` (cart.js:190-203): `find` the line; at
quantity ≤ 1 the line is removed, otherwise 1 is subtracted. -/
def decrementQuantity (product : String) (cart : Cart) : Cart :=
  match cart.find? (fun it => it.product = product) with
  | none => cart
  | some it0 =>
    if it0.qty ≤ 1 then removeFromCart product cart
    else updateFirst product (fun it => { it with qty := it.qty - 1 }) cart

/-- The cart invariant of the spec's data model (§3 CartItem): at most one
line per product name, and every line has quantity ≥ 1. -/
def cartInvariant (cart : Cart) : Prop :=
  (cart.map (fun it => it.product)).Nodup ∧ ∀ it ∈ cart, 1 ≤ it.qty

instance (cart : Cart) : Decidable (cartInvariant cart) := by
  unfold cartInvariant; infer_instance

/- ===================== Pricing engine (src/static/js/checkout.js) ===================== -/

/-- Model of the `activePromo` object set by `handleApplyPromo`
(checkout.js:285-289): `ptype` is the JS `type` field ("flat" or "percent"),
`value` its numeric value. -/
structure PromoInfo where
  ptype : String
  value : ℚ
deriving DecidableEq

/-- The pricing part of the checkout CONFIG object (checkout.js:11-25). -/
structure PricingConfig where
  taxRate : ℚ
  smallOrderFeeThreshold : ℚ

/-- The full price breakdown computed for display and for the payload
(spec §3 PriceBreakdown). -/
structure PriceBreakdown where
  subtotal : ℚ
  discount : ℚ
  taxableSubtotal : ℚ
  tax : ℚ
  fee : ℚ
  total : ℚ
deriving DecidableEq

/-- Embedding of the arithmetic of `updateCartTotal` (checkout.js:625-651):
subtotal from cart cents, promo discount (flat or percent, computed only when
a promo is active and the subtotal is positive, capped above at the
subtotal), taxable subtotal clamped at 0, tax, the small-order fee, and the
grand total. The DOM rendering part of the function is display-only and not
modelled. -/
def updateCartTotal (cart : Cart) (activePromo : Option PromoInfo)
    (cfg : PricingConfig) : PriceBreakdown :=
  let subtotal : ℚ := (getCartTotalCents cart : ℚ) / 100
  let discount : ℚ :=
    match activePromo with
    | none => 0
    | some p =>
      if 0 < subtotal then
        let d : ℚ :=
          if p.ptype = "flat" then p.value
          else if p.ptype = "percent" then subtotal * (p.value / 100)
          else 0
        if subtotal < d then subtotal else d
      else 0
  let taxableSubtotal : ℚ := max 0 (subtotal - discount)
  let tax : ℚ := taxableSubtotal * cfg.taxRate
  let fee : ℚ :=
    if 0 < taxableSubtotal ∧ taxableSubtotal < cfg.smallOrderFeeThreshold then
      (taxableSubtotal + tax) * (3 / 100) + 3 / 10
    else 0
  let total : ℚ := taxableSubtotal + tax + fee
  { subtotal := subtotal, discount := discount, taxableSubtotal := taxableSubtotal,
    tax := tax, fee := fee, total := total }

/-- Embedding of the amount recomputation inside `buildOrderPayload`
(checkout.js:944-965), the block commented "Re-calculate Logic for Payload
(Mirror updateCartTotal)": subtotal, discount, taxable subtotal, tax, fee
and total as placed into the submitted order payload. -/
def buildOrderPayloadAmounts (cart : Cart) (activePromo : Option PromoInfo)
    (cfg : PricingConfig) : PriceBreakdown :=
  let subtotal : ℚ := (getCartTotalCents cart : ℚ) / 100
  let discount : ℚ :=
    match activePromo with
    | none => 0
    | some p =>
      if 0 < subtotal then
        let d : ℚ :=
          if p.ptype = "flat" then p.value
          else if p.ptype = "percent" then subtotal * (p.value / 100)
          else 0
        if subtotal < d then subtotal else d
      else 0
  let taxableSubtotal : ℚ := max 0 (subtotal - discount)
  let tax : ℚ := taxableSubtotal * cfg.taxRate
  let fee : ℚ :=
    if 0 < taxableSubtotal ∧ taxableSubtotal < cfg.smallOrderFeeThreshold then
      (taxableSubtotal + tax) * (3 / 100) + 3 / 10
    else 0
  let total : ℚ := taxableSubtotal + tax + fee
  { subtotal := subtotal, discount := discount, taxableSubtotal := taxableSubtotal,
    tax := tax, fee := fee, total := total }

/-- Display rounding to whole cents, modelling the two-decimal currency
formatting applied at render time (`Intl.NumberFormat`/`toFixed(2)`); for the
non-negative amounts of this module half-away-from-zero agrees with
`round`. -/
def roundCents (x : ℚ) : ℚ := (round (x * 100) : ℚ) / 100

/- ===================== Kernel-evaluable string helpers ===================== -/

/-- Model of JS `String.prototype.toLowerCase` (per-character lowering; the
emails and summaries of this repository are ASCII, where `Char.toLower`
agrees with the JS behaviour). -/
def jsToLowerCase (s : String) : String := String.mk (s.data.map Char.toLower)

/-- Model of JS `String.prototype.trim`: strip whitespace from both ends. -/
def jsTrim (s : String) : String :=
  String.mk (((s.data.dropWhile Char.isWhitespace).reverse.dropWhile
    Char.isWhitespace).reverse)

/-- Substring test over character lists, modelling JS
`String.prototype.includes`. -/
def hasSubstring (hay pat : List Char) : Bool :=
  match hay with
  | [] => pat.isEmpty
  | _ :: rest => pat.isPrefixOf hay || hasSubstring rest pat

/- ===================== Token service (src/workers/newsletter-signup) ===================== -/

/-- Hex digits of a natural number, modelling JS `Number.prototype.toString(16)`
for the byte values used here (lowercase digits, no leading zeros, "0" for 0). -/
def natToHexChars (n : Nat) : List Char := Nat.toDigits 16 n

/-- Model of `.padStart(2, "0")` on a hex string. -/
def padTwo (cs : List Char) : List Char := List.replicate (2 - cs.length) '0' ++ cs

/-- Hex rendering of one unsigned byte as done by the edge worker
(index.js:451-453): `b.toString(16).padStart(2, "0")`. -/
def byteToHexWorker (b : Nat) : List Char := padTwo (natToHexChars b)

/-- Hex rendering of a whole byte array as done by the edge worker. -/
def hexOfBytes (bytes : List Nat) : List Char :=
  (bytes.map byteToHexWorker).flatten

/-- Embedding of the worker `generateUnsubscribeToken`
(newsletter-signup/src/index.js:436-457). The Web Crypto HMAC-SHA256
primitive is the platform boundary and is passed as `hmacSha256 key message`,
returning the 32 unsigned bytes of the signature; the function normalizes the
email (lowercase then trim), signs it under the secret, hex-encodes, and
keeps the first 32 hex characters. -/
def generateUnsubscribeToken (hmacSha256 : String → String → List Nat)
    (email secret : String) : String :=
  String.mk ((hexOfBytes (hmacSha256 secret (jsTrim (jsToLowerCase email)))).take 32)

/-- Embedding of the worker `verifyUnsubscribeToken` (index.js:466-469):
recompute the expected token and compare for equality. -/
def verifyUnsubscribeToken (hmacSha256 : String → String → List Nat)
    (email token secret : String) : Bool :=
  token == generateUnsubscribeToken hmacSha256 email secret

/-- The signed-byte view of an unsigned byte, as Apps Script's
`Utilities.computeHmacSignature` returns Java bytes in [-128, 127]. -/
def byteSigned (u : Nat) : Int := if u < 128 then (u : Int) else (u : Int) - 256

/-- Model of `.slice(-2)` on the short strings built by the Apps Script hex
conversion (length ≤ 3). -/
def takeLast2 (cs : List Char) : List Char := cs.drop (cs.length - 2)

/-- Hex rendering of one signed byte as done by the Apps Script
implementation (google-apps-script.js:319-325):
`v = (byte + 256) % 256; ("0" + v.toString(16)).slice(-2)`. -/
def byteToHexAppsScript (b : Int) : List Char :=
  let v : Int := (b + 256) % 256
  takeLast2 ('0' :: natToHexChars v.toNat)

/-- Embedding of the Apps Script `generateUnsubscribeToken`
(newsletter-signup/google-apps-script.js:308-329). The
`Utilities.computeHmacSignature` primitive is passed as
`computeHmacSignature value key`, returning signed bytes; the function
normalizes the email, signs it under the configured secret, hex-converts
each signed byte, and keeps the first 32 characters. -/
def generateUnsubscribeTokenAppsScript
    (computeHmacSignature : String → String → List Int)
    (unsubscribeSecret : String) (email : String) : String :=
  let normalizedEmail := jsTrim (jsToLowerCase email)
  let rawSignature := computeHmacSignature normalizedEmail unsubscribeSecret
  let hashHex := (rawSignature.map byteToHexAppsScript).flatten
  String.mk (hashHex.take 32)

/- ===================== Webhook handler (src/workers/stripe-checkout) ===================== -/

/-- The slice of a Stripe event this handler inspects. -/
structure StripeEvent where
  type : String
  id : String
deriving DecidableEq

/-- Outcome of `stripe.webhooks.constructEventAsync` on the raw body and
signature header: either a verified event or a thrown verification error. -/
inductive WebhookVerification where
  | verified (event : StripeEvent)
  | failed (message : String)

/-- Observable outcome of one webhook request: the HTTP status returned to
the provider, whether `forwardOrderToAppsScript` was invoked, and whether a
POST to the spreadsheet sink was actually issued. -/
structure WebhookResult where
  status : Nat
  forwardAttempted : Bool
  sinkPosted : Bool
deriving DecidableEq

/-- Embedding of `forwardOrderToAppsScript` (stripe-checkout/src/index.js:
182-210): returns whether a sink POST was issued. With no configured
`ORDER_SHEET_SCRIPT_URL` it returns without fetching; a fetch error or a
non-ok sink response is caught and only logged, so nothing escapes to the
caller regardless of `sinkOk` (the sink's response-ok outcome). -/
def forwardOrderToAppsScript (scriptUrlConfigured : Bool) (sinkOk : Bool) : Bool :=
  if scriptUrlConfigured then
    -- the POST happens whether or not the sink responds ok; sinkOk only
    -- affects what is logged
    (fun _ => true) sinkOk
  else false

/-- Embedding of `handleWebhook` (stripe-checkout/src/index.js:154-177):
failed signature verification returns status 400 before any further work;
on success, a "checkout.session.completed" event is forwarded to the sink
and 200 is returned in every verified case. -/
def handleWebhook (verification : WebhookVerification)
    (scriptUrlConfigured sinkOk : Bool) : WebhookResult :=
  match verification with
  | .failed _ => { status := 400, forwardAttempted := false, sinkPosted := false }
  | .verified event =>
    if event.type = "checkout.session.completed" then
      { status := 200, forwardAttempted := true,
        sinkPosted := forwardOrderToAppsScript scriptUrlConfigured sinkOk }
    else
      { status := 200, forwardAttempted := false, sinkPosted := false }

/- ===================== Origin check (src/workers/stripe-checkout) ===================== -/

/-- The hard-coded trusted domain suffix list of `isOriginAllowed`
(stripe-checkout/src/index.js:20). -/
def trustedDomains : List String := ["thecookieisle.com", "cookieisle.com", "pages.dev"]

/-- Model of `new URL(origin).hostname`: requires a scheme separator, takes
the authority part before any path or port, `none` models the thrown
TypeError on an unparsable origin. (Hostname case-folding by the platform
URL parser is not modelled; no claim depends on it.) -/
def parseURLHostname (origin : String) : Option String :=
  match origin.splitOn "://" with
  | [scheme, rest] =>
    if scheme.isEmpty || rest.isEmpty then none
    else some ((((rest.splitOn "/").headD "").splitOn ":").headD "")
  | _ => none

/-- Embedding of `isOriginAllowed` (stripe-checkout/src/index.js:12-29):
a configured wildcard allows everything before the null-origin check; a
missing or empty Origin header is rejected; otherwise the origin must appear
in the configured comma-separated allow-list or have a hostname equal to or
a subdomain of one of the trusted domains. `origin` is `none` when the
request carried no Origin header. -/
def isOriginAllowed (origin : Option String) (allowedOriginsCfg : String) : Bool :=
  if allowedOriginsCfg = "*" then true
  else
    match origin with
    | none => false
    | some o =>
      if o = "" then false
      else
        let allowedOrigins := (allowedOriginsCfg.splitOn ",").map (fun s => s.trim)
        if allowedOrigins.contains o then true
        else
          match parseURLHostname o with
          | none => false
          | some host =>
            trustedDomains.any (fun domain =>
              host = domain || host.endsWith ("." ++ domain))

/-- Outcome of the `POST /session` origin gate in the worker `fetch` handler. -/
inductive SessionRouteOutcome where
  | forbidden403
  | proceedToCreateSession
deriving DecidableEq

/-- Embedding of the `POST /session` routing (stripe-checkout/src/index.js:
69-74): a disallowed origin is answered with the 403 Forbidden response,
otherwise the request proceeds to `handleCreateSession`. -/
def sessionOriginGate (origin : Option String) (allowedOriginsCfg : String) :
    SessionRouteOutcome :=
  if isOriginAllowed origin allowedOriginsCfg then .proceedToCreateSession
  else .forbidden403

/- ===================== Calendar slot parser (calendar-slots worker) ===================== -/

/-- One VEVENT under construction, with the properties the parser extracts
(`parseICalEvents`, calendar-slots worker). All fields start absent. -/
structure CalEvent where
  summary : Option String := none
  startDate : Option Int := none
  endDate : Option Int := none
  description : Option String := none
  uid : Option String := none
deriving DecidableEq

/-- Fueled global replacement of a pattern by a replacement in a character
list, modelling `String.prototype.replace` with a global regex
(left-to-right, non-overlapping, scanning resumes after the replacement). -/
def replaceAllGo (pat repl : List Char) : Nat → List Char → List Char
  | _, [] => []
  | 0, cs => cs
  | fuel + 1, c :: rest =>
    if pat ≠ [] ∧ pat.isPrefixOf (c :: rest) then
      repl ++ replaceAllGo pat repl fuel ((c :: rest).drop pat.length)
    else
      c :: replaceAllGo pat repl fuel rest

/-- Global replacement wrapper; the fuel is the input length, enough because
each step consumes at least one character. -/
def replaceAll (pat repl cs : List Char) : List Char :=
  replaceAllGo pat repl cs.length cs

/-- Split a character list at newline characters (accumulator is reversed). -/
def splitLinesGo (acc : List Char) : List Char → List (List Char)
  | [] => [acc.reverse]
  | c :: rest =>
    if c = '\n' then acc.reverse :: splitLinesGo [] rest
    else splitLinesGo (c :: acc) rest

/-- Drop the carriage return left at the end of a line split at a bare
newline, completing the model of splitting on the regex of `\r`-optional
newlines. -/
def stripCR (line : List Char) : List Char :=
  if line.getLast? = some '\r' then line.dropLast else line

/-- Line preparation of `parseICalEvents` (calendar-slots worker:87):
unfold folded continuation lines (`replace(/\r\n /g, "")`) and split into
lines. -/
def icalLines (icalData : String) : List (List Char) :=
  (splitLinesGo [] (replaceAll ['\r', '\n', ' '] [] icalData.data)).map stripCR

/-- Find the first colon of a property line and split around it, returning
`none` when the line has no colon or the colon is the first character
(the source requires `line.indexOf(":") > 0`). -/
def colonSplitGo (acc : List Char) : List Char → Option (List Char × List Char)
  | [] => none
  | c :: rest =>
    if c = ':' then some (acc.reverse, rest) else colonSplitGo (c :: acc) rest

/-- Split a line at its first colon per `parseICalEvents` (worker:104-107). -/
def colonSplit : List Char → Option (List Char × List Char)
  | [] => none
  | c :: rest => if c = ':' then none else colonSplitGo [c] rest

/-- Digit interpretation of the fixed-width numeric substrings of an iCal
date, modelling `parseInt` on the digit strings produced by well-formed
feeds (an empty substring yields 0, matching the `|| 0` fallback used for
seconds). -/
def toNatDigits (cs : List Char) : Nat :=
  cs.foldl (fun n c => n * 10 + (c.toNat - '0'.toNat)) 0

/-- Abstract monotone encoding of the platform `Date` value (its epoch
instant) from civil components as handed to `new Date(...)` /
`Date.UTC(...)`. The encoding counts in seconds; ordering of well-formed
feed instants is preserved, which is all the slot claims use. The offset
between local-time and UTC construction is not modelled (the spec flags the
naive local-time handling as an accepted imprecision). -/
def encodeCivilTime (year month day hour minute second : Int) : Int :=
  ((((year * 12 + month) * 31 + day) * 24 + hour) * 60 + minute) * 60 + second

/-- Embedding of `parseICalDate` (calendar-slots worker:137-172): an
8-character value is an all-day date at local midnight; a value containing
`T` is a datetime whose trailing `Z` marks UTC; anything else falls through
to the platform `new Date(value)` constructor, modelled as the epoch
placeholder 0 (no claim depends on the fallback). -/
def parseICalDate (value : String) : Int :=
  let cs := value.data
  if cs.length = 8 then
    let year : Int := toNatDigits (cs.take 4)
    let month : Int := (toNatDigits ((cs.drop 4).take 2) : Int) - 1
    let day : Int := toNatDigits ((cs.drop 6).take 2)
    encodeCivilTime year month day 0 0 0
  else if cs.contains 'T' then
    let isUTC := cs.getLast? = some 'Z'
    let ds := if isUTC then cs.dropLast else cs
    let year : Int := toNatDigits (ds.take 4)
    let month : Int := (toNatDigits ((ds.drop 4).take 2) : Int) - 1
    let day : Int := toNatDigits ((ds.drop 6).take 2)
    let hour : Int := toNatDigits ((ds.drop 9).take 2)
    let minute : Int := toNatDigits ((ds.drop 11).take 2)
    let second : Int := toNatDigits ((ds.drop 13).take 2)
    if isUTC then encodeCivilTime year month day hour minute second
    else encodeCivilTime year month day hour minute second
  else 0

/-- Embedding of `unescapeICalText` (calendar-slots worker:177-182): the
three chained global replaces for escaped newlines, commas and
backslashes. -/
def unescapeICalText (text : String) : String :=
  String.mk (replaceAll ['\\', '\\'] ['\\']
    (replaceAll ['\\', ','] [',']
      (replaceAll ['\\', 'n'] ['\n'] text.data)))

/-- Property dispatch of the `switch (key)` in `parseICalEvents`
(worker:109-125). -/
def applyEventProperty (ev : CalEvent) (key : List Char) (value : String) : CalEvent :=
  if key = "SUMMARY".data then { ev with summary := some (unescapeICalText value) }
  else if key = "DTSTART".data then { ev with startDate := some (parseICalDate value) }
  else if key = "DTEND".data then { ev with endDate := some (parseICalDate value) }
  else if key = "DESCRIPTION".data then
    { ev with description := some (unescapeICalText value) }
  else if key = "UID".data then { ev with uid := some value }
  else ev

/-- One step of the line loop of `parseICalEvents` (worker:91-128), carried
state is (collected events, current open VEVENT). At `END:VEVENT` the event
is kept only when its summary starts with the configured event-title filter
string. -/
def processICalLine (eventTitle : String) (st : List CalEvent × Option CalEvent)
    (line : List Char) : List CalEvent × Option CalEvent :=
  let events := st.1
  let current := st.2
  if line = "BEGIN:VEVENT".data then (events, some {})
  else if line = "END:VEVENT".data then
    match current with
    | some ev =>
      match ev.summary with
      | some s => if s.startsWith eventTitle then (events ++ [ev], none) else (events, none)
      | none => (events, none)
    | none => (events, none)
  else
    match current with
    | none => (events, none)
    | some ev =>
      match colonSplit line with
      | none => (events, some ev)
      | some (keyRaw, valueChars) =>
        let key := keyRaw.takeWhile (fun c => c ≠ ';')
        (events, some (applyEventProperty ev key (String.mk valueChars)))

/-- Embedding of `parseICalEvents` (calendar-slots worker:85-131). -/
def parseICalEvents (icalData : String) (eventTitle : String) : List CalEvent :=
  ((icalLines icalData).foldl (processICalLine eventTitle) ([], none)).1

/-- A fulfillment slot as returned to the checkout page. The platform's
locale/ISO string renderings of the two instants (the `date`,
`dateFormatted`, `startTime`, `endTime`, `startTimestamp`, `endTimestamp`
display fields and the ISO fallback id) are display formatting and are
carried here as the instants themselves (`startTs`, `endTs`). -/
structure Slot where
  uid : Option String
  startTs : Int
  endTs : Int
  slotType : String
  title : String
  description : String
deriving DecidableEq

/-- Embedding of `formatSlot` (calendar-slots worker:187-216): default end
is two hours (7200 encoded seconds) after the start, and the slot type is
classified from the lowercased summary: "pickup" without "delivery" →
pickup, "delivery" without "pickup" → delivery, otherwise both. -/
def formatSlot (event : CalEvent) : Slot :=
  let startDate := event.startDate.getD 0
  let endDate := event.endDate.getD (startDate + 7200)
  let summary := (jsToLowerCase (event.summary.getD "")).data
  let slotType :=
    if hasSubstring summary "pickup".data ∧ ¬ (hasSubstring summary "delivery".data) then
      "pickup"
    else if hasSubstring summary "delivery".data ∧ ¬ (hasSubstring summary "pickup".data) then
      "delivery"
    else "both"
  { uid := event.uid, startTs := startDate, endTs := endDate,
    slotType := slotType, title := event.summary.getD "",
    description := event.description.getD "" }

/-- Embedding of `fetchAndParseCalendar` (calendar-slots worker:61-79)
applied to a successfully fetched feed body: parse the events, keep only
those starting strictly after `now`, sort ascending by start instant
(the comparator `a.startDate - b.startDate`), and format each slot. The
HTTP fetch and its non-ok failure path are the platform boundary. -/
def fetchAndParseCalendar (icalData : String) (eventTitle : String) (now : Int) :
    List Slot :=
  let events := parseICalEvents icalData eventTitle
  let futureEvents :=
    (events.filter (fun event =>
      match event.startDate with
      | some d => decide (now < d)
      | none => false)).mergeSort
      (fun a b => a.startDate.getD 0 ≤ b.startDate.getD 0)
  futureEvents.map formatSlot

/- ===================== Support definitions for the proofs ===================== -/

/-- Characterization of the discount computation shared by `updateCartTotal`
and `buildOrderPayloadAmounts`, as a standalone function of the subtotal and
the active promo; `updateCartTotal_discount` below shows it is definitionally
the discount of the source embedding. -/
def promoDiscount (subtotal : ℚ) (promo : Option PromoInfo) : ℚ :=
  match promo with
  | none => 0
  | some p =>
    if 0 < subtotal then
      let d : ℚ :=
        if p.ptype = "flat" then p.value
        else if p.ptype = "percent" then subtotal * (p.value / 100)
        else 0
      if subtotal < d then subtotal else d
    else 0

/-- A concrete stand-in for the platform HMAC-SHA256 primitive, used by the
witnesses: 32 fixed bytes covering both the below-128 and the 128-and-above
ranges. -/
def hmacSample : String → String → List Nat :=
  fun _ _ => (List.range 32).map (fun i => (i * 37 + 100) % 256)

/-- The signed-byte view of `hmacSample`, standing in for the Apps Script
`Utilities.computeHmacSignature` primitive in the witnesses. -/
def hmacSampleSigned : String → String → List Int :=
  fun value key => (hmacSample key value).map byteSigned

/- ===================== Helper lemmas ===================== -/

theorem getCartTotalCents_foldl_nonneg (cart : Cart) :
    ∀ acc : Int, 0 ≤ acc → (∀ it ∈ cart, 0 ≤ it.price_cents ∧ 0 ≤ it.qty) →
    0 ≤ cart.foldl (fun total it => total + it.price_cents * it.qty) acc := by
  induction cart with
  | nil => intro acc hacc _; simpa using hacc
  | cons it rest ih =>
    intro acc hacc h
    have hit := h it (List.mem_cons_self it rest)
    have : 0 ≤ acc + it.price_cents * it.qty :=
      add_nonneg hacc (mul_nonneg hit.1 hit.2)
    exact ih _ this (fun x hx => h x (List.mem_cons_of_mem it hx))

theorem getCartTotalCents_nonneg (cart : Cart)
    (h : ∀ it ∈ cart, 0 ≤ it.price_cents ∧ 0 ≤ it.qty) :
    0 ≤ getCartTotalCents cart :=
  getCartTotalCents_foldl_nonneg cart 0 le_rfl h

theorem updateCartTotal_subtotal (cart : Cart) (promo : Option PromoInfo)
    (cfg : PricingConfig) :
    (updateCartTotal cart promo cfg).subtotal = (getCartTotalCents cart : ℚ) / 100 := rfl

theorem updateCartTotal_discount (cart : Cart) (promo : Option PromoInfo)
    (cfg : PricingConfig) :
    (updateCartTotal cart promo cfg).discount =
      promoDiscount ((getCartTotalCents cart : ℚ) / 100) promo := rfl

theorem updateCartTotal_taxableSubtotal (cart : Cart) (promo : Option PromoInfo)
    (cfg : PricingConfig) :
    (updateCartTotal cart promo cfg).taxableSubtotal =
      max 0 ((updateCartTotal cart promo cfg).subtotal
        - (updateCartTotal cart promo cfg).discount) := rfl

theorem updateCartTotal_tax (cart : Cart) (promo : Option PromoInfo)
    (cfg : PricingConfig) :
    (updateCartTotal cart promo cfg).tax =
      (updateCartTotal cart promo cfg).taxableSubtotal * cfg.taxRate := rfl

theorem updateCartTotal_fee (cart : Cart) (promo : Option PromoInfo)
    (cfg : PricingConfig) :
    (updateCartTotal cart promo cfg).fee =
      (if 0 < (updateCartTotal cart promo cfg).taxableSubtotal ∧
          (updateCartTotal cart promo cfg).taxableSubtotal < cfg.smallOrderFeeThreshold
        then ((updateCartTotal cart promo cfg).taxableSubtotal
            + (updateCartTotal cart promo cfg).tax) * (3 / 100) + 3 / 10
        else 0) := rfl

theorem updateCartTotal_total (cart : Cart) (promo : Option PromoInfo)
    (cfg : PricingConfig) :
    (updateCartTotal cart promo cfg).total =
      (updateCartTotal cart promo cfg).taxableSubtotal
        + (updateCartTotal cart promo cfg).tax
        + (updateCartTotal cart promo cfg).fee := rfl

theorem capAtSubtotal_le (s d : ℚ) (hs : 0 ≤ s) :
    (if 0 < s then (if s < d then s else d) else 0) ≤ s := by
  by_cases h1 : 0 < s
  · rw [if_pos h1]
    by_cases h2 : s < d
    · rw [if_pos h2]
    · rw [if_neg h2]; exact le_of_not_lt h2
  · rw [if_neg h1]; exact hs

theorem capAtSubtotal_nonneg (s d : ℚ) (hs : 0 ≤ s) (hd : 0 ≤ d) :
    0 ≤ (if 0 < s then (if s < d then s else d) else 0) := by
  by_cases h1 : 0 < s
  · rw [if_pos h1]
    by_cases h2 : s < d
    · rw [if_pos h2]; exact hs
    · rw [if_neg h2]; exact hd
  · rw [if_neg h1]

theorem promoDiscount_le (subtotal : ℚ) (promo : Option PromoInfo)
    (hs : 0 ≤ subtotal) : promoDiscount subtotal promo ≤ subtotal := by
  cases promo with
  | none => simpa [promoDiscount] using hs
  | some p =>
    simp only [promoDiscount]
    exact capAtSubtotal_le subtotal _ hs

theorem promoDiscount_nonneg (subtotal : ℚ) (p : PromoInfo)
    (hs : 0 ≤ subtotal) (hv : 0 ≤ p.value) :
    0 ≤ promoDiscount subtotal (some p) := by
  simp only [promoDiscount]
  refine capAtSubtotal_nonneg subtotal _ hs ?_
  by_cases hf : p.ptype = "flat"
  · rw [if_pos hf]; exact hv
  · rw [if_neg hf]
    by_cases hp : p.ptype = "percent"
    · rw [if_pos hp]; exact mul_nonneg hs (by positivity)
    · rw [if_neg hp]

theorem map_product_updateFirst (p : String) (f : CartItem → CartItem)
    (hf : ∀ it, (f it).product = it.product) (cart : Cart) :
    (updateFirst p f cart).map (fun it => it.product)
      = cart.map (fun it => it.product) := by
  induction cart with
  | nil => rfl
  | cons it rest ih =>
    by_cases h : it.product = p
    · simp [updateFirst, h, hf]
    · simp [updateFirst, h, ih]

theorem mem_updateFirst {p : String} {f : CartItem → CartItem} {cart : Cart}
    {it : CartItem} (hmem : it ∈ updateFirst p f cart) :
    it ∈ cart ∨ ∃ it0 ∈ cart, it0.product = p ∧ it = f it0 := by
  induction cart with
  | nil => simp [updateFirst] at hmem
  | cons hd rest ih =>
    by_cases h : hd.product = p
    · rw [updateFirst, if_pos h] at hmem
      rcases List.mem_cons.mp hmem with h1 | h1
      · exact Or.inr ⟨hd, List.mem_cons_self hd rest, h, h1⟩
      · exact Or.inl (List.mem_cons_of_mem hd h1)
    · rw [updateFirst, if_neg h] at hmem
      rcases List.mem_cons.mp hmem with h1 | h1
      · exact Or.inl (h1 ▸ List.mem_cons_self hd rest)
      · rcases ih h1 with h2 | ⟨it0, h3, h4, h5⟩
        · exact Or.inl (List.mem_cons_of_mem hd h2)
        · exact Or.inr ⟨it0, List.mem_cons_of_mem hd h3, h4, h5⟩

theorem cartInvariant_updateFirst {p : String} {f : CartItem → CartItem}
    {cart : Cart} (hinv : cartInvariant cart)
    (hf : ∀ it, (f it).product = it.product)
    (hq : ∀ it0 ∈ cart, it0.product = p → 1 ≤ (f it0).qty) :
    cartInvariant (updateFirst p f cart) := by
  constructor
  · rw [map_product_updateFirst p f hf]; exact hinv.1
  · intro it hit
    rcases mem_updateFirst hit with h | ⟨it0, h0, hp0, rfl⟩
    · exact hinv.2 it h
    · exact hq it0 h0 hp0

theorem cartInvariant_removeFromCart (p : String) {cart : Cart}
    (hinv : cartInvariant cart) : cartInvariant (removeFromCart p cart) := by
  constructor
  · exact List.Nodup.sublist ((List.filter_sublist cart).map _) hinv.1
  · intro it hit
    exact hinv.2 it (List.mem_of_mem_filter hit)

set_option maxRecDepth 4000 in
theorem byteHex_signed_eq_unsigned :
    ∀ b, b < 256 → byteToHexAppsScript (byteSigned b) = byteToHexWorker b := by
  decide

theorem hexOfBytes_signed_eq (bs : List Nat) (h : ∀ b ∈ bs, b < 256) :
    ((bs.map byteSigned).map byteToHexAppsScript).flatten
      = (bs.map byteToHexWorker).flatten := by
  rw [List.map_map]
  congr 1
  exact List.map_congr_left (fun b hb =>
    byteHex_signed_eq_unsigned b (h b hb))

theorem formatSlot_startTs (event : CalEvent) :
    (formatSlot event).startTs = event.startDate.getD 0 := rfl

theorem smallOrderExample_tax :
    (updateCartTotal [⟨"Cookie", 800, 1, none⟩] none ⟨31/400, 10⟩).tax = 62/100 := by
  norm_num [updateCartTotal, getCartTotalCents, List.foldl_cons, List.foldl_nil, max_def]

theorem smallOrderExample_fee :
    (updateCartTotal [⟨"Cookie", 800, 1, none⟩] none ⟨31/400, 10⟩).fee = 5586/10000 := by
  norm_num [updateCartTotal, getCartTotalCents, List.foldl_cons, List.foldl_nil, max_def]

theorem smallOrderExample_round :
    roundCents (updateCartTotal [⟨"Cookie", 800, 1, none⟩] none ⟨31/400, 10⟩).total
      = 918/100 := by
  norm_num [roundCents, updateCartTotal, getCartTotalCents, List.foldl_cons,
    List.foldl_nil, max_def, round_eq]

/- ===================== Claim theorems ===================== -/

/-- Claim C1, counterexample to the claim as stated: with a flat promo whose
configured value is -5 and a $10.00 cart, `updateCartTotal` stores the
discount -5, which violates the claimed clamping of the discount to the
range [0, subtotal] (the code caps the discount above at the subtotal but
never clamps it below at 0). -/
theorem c1_discount_counterexample :
    (updateCartTotal [⟨"X", 1000, 1, none⟩] (some ⟨"flat", -5⟩) ⟨0, 10⟩).discount = -5
    ∧ ¬ (0 ≤ (updateCartTotal [⟨"X", 1000, 1, none⟩]
        (some ⟨"flat", -5⟩) ⟨0, 10⟩).discount) := by
  have h : (updateCartTotal [⟨"X", 1000, 1, none⟩] (some ⟨"flat", -5⟩)
      ⟨0, 10⟩).discount = -5 := by
    rw [updateCartTotal_discount]
    norm_num [promoDiscount, getCartTotalCents, List.foldl_cons, List.foldl_nil]
  refine ⟨h, ?_⟩
  rw [h]
  norm_num

/-- Claim C1 (amended): for every cart whose lines have non-negative unit
price and quantity, every promo and every configuration, the breakdown of
`updateCartTotal` satisfies: the grand total equals
taxableSubtotal + tax + fee, taxableSubtotal = max(0, subtotal − discount),
tax = taxableSubtotal × taxRate, the discount never exceeds the subtotal,
the discount is 0 with no active promo, and the discount is non-negative
(hence in [0, subtotal]) whenever the active promo's value is non-negative.
(The unconditional lower clamp of the original claim fails; see the
counterexample.) -/
theorem c1_pricing_breakdown (cart : Cart) (promo : Option PromoInfo)
    (cfg : PricingConfig)
    (hcart : ∀ it ∈ cart, 0 ≤ it.price_cents ∧ 0 ≤ it.qty) :
    (updateCartTotal cart promo cfg).total
        = (updateCartTotal cart promo cfg).taxableSubtotal
          + (updateCartTotal cart promo cfg).tax
          + (updateCartTotal cart promo cfg).fee
    ∧ (updateCartTotal cart promo cfg).taxableSubtotal
        = max 0 ((updateCartTotal cart promo cfg).subtotal
            - (updateCartTotal cart promo cfg).discount)
    ∧ (updateCartTotal cart promo cfg).tax
        = (updateCartTotal cart promo cfg).taxableSubtotal * cfg.taxRate
    ∧ (updateCartTotal cart promo cfg).discount
        ≤ (updateCartTotal cart promo cfg).subtotal
    ∧ (promo = none → (updateCartTotal cart promo cfg).discount = 0)
    ∧ (∀ p, promo = some p → 0 ≤ p.value →
        0 ≤ (updateCartTotal cart promo cfg).discount) := by
  have hs : (0 : ℚ) ≤ (getCartTotalCents cart : ℚ) / 100 := by
    have h0 := getCartTotalCents_nonneg cart hcart
    have : (0 : ℚ) ≤ (getCartTotalCents cart : ℚ) := by exact_mod_cast h0
    positivity
  refine ⟨rfl, rfl, rfl, ?_, ?_, ?_⟩
  · rw [updateCartTotal_discount, updateCartTotal_subtotal]
    exact promoDiscount_le _ _ hs
  · rintro rfl
    rfl
  · rintro p rfl hv
    rw [updateCartTotal_discount]
    exact promoDiscount_nonneg _ p hs hv

/-- Witness for C1: the amended theorem applied to the concrete cart of two
$3.50 cookies with a 10 percent promo at the production tax rate. -/
theorem c1_pricing_breakdown_witness :
    (∀ it ∈ ([⟨"Chocolate Chip", 350, 2, none⟩] : Cart),
        0 ≤ it.price_cents ∧ 0 ≤ it.qty)
    ∧ ((updateCartTotal [⟨"Chocolate Chip", 350, 2, none⟩]
          (some ⟨"percent", 10⟩) ⟨31/400, 10⟩).total
        = (updateCartTotal [⟨"Chocolate Chip", 350, 2, none⟩]
            (some ⟨"percent", 10⟩) ⟨31/400, 10⟩).taxableSubtotal
          + (updateCartTotal [⟨"Chocolate Chip", 350, 2, none⟩]
              (some ⟨"percent", 10⟩) ⟨31/400, 10⟩).tax
          + (updateCartTotal [⟨"Chocolate Chip", 350, 2, none⟩]
              (some ⟨"percent", 10⟩) ⟨31/400, 10⟩).fee
      ∧ (updateCartTotal [⟨"Chocolate Chip", 350, 2, none⟩]
            (some ⟨"percent", 10⟩) ⟨31/400, 10⟩).taxableSubtotal
          = max 0 ((updateCartTotal [⟨"Chocolate Chip", 350, 2, none⟩]
                (some ⟨"percent", 10⟩) ⟨31/400, 10⟩).subtotal
              - (updateCartTotal [⟨"Chocolate Chip", 350, 2, none⟩]
                  (some ⟨"percent", 10⟩) ⟨31/400, 10⟩).discount)
      ∧ (updateCartTotal [⟨"Chocolate Chip", 350, 2, none⟩]
            (some ⟨"percent", 10⟩) ⟨31/400, 10⟩).tax
          = (updateCartTotal [⟨"Chocolate Chip", 350, 2, none⟩]
              (some ⟨"percent", 10⟩) ⟨31/400, 10⟩).taxableSubtotal * (31/400 : ℚ)
      ∧ (updateCartTotal [⟨"Chocolate Chip", 350, 2, none⟩]
            (some ⟨"percent", 10⟩) ⟨31/400, 10⟩).discount
          ≤ (updateCartTotal [⟨"Chocolate Chip", 350, 2, none⟩]
              (some ⟨"percent", 10⟩) ⟨31/400, 10⟩).subtotal
      ∧ (some (⟨"percent", 10⟩ : PromoInfo) = none →
          (updateCartTotal [⟨"Chocolate Chip", 350, 2, none⟩]
              (some ⟨"percent", 10⟩) ⟨31/400, 10⟩).discount = 0)
      ∧ (∀ p, some (⟨"percent", 10⟩ : PromoInfo) = some p → 0 ≤ p.value →
          0 ≤ (updateCartTotal [⟨"Chocolate Chip", 350, 2, none⟩]
              (some ⟨"percent", 10⟩) ⟨31/400, 10⟩).discount)) :=
  ⟨by decide, c1_pricing_breakdown _ _ _ (by decide)⟩

/-- Claim C2: assuming a non-negative tax rate, the small-order fee of
`updateCartTotal` is non-zero exactly when 0 < taxableSubtotal < threshold,
in which case it equals (taxableSubtotal + tax) × 0.03 + 0.30, and is 0
otherwise; and concretely, for an $8.00 subtotal at tax rate 0.0775 with
threshold $10 the tax is $0.62, the fee is $0.5586 and the total rounds to
$9.18 at display rounding. -/
theorem c2_fee_rule (cart : Cart) (promo : Option PromoInfo) (cfg : PricingConfig)
    (hrate : 0 ≤ cfg.taxRate) :
    ((updateCartTotal cart promo cfg).fee ≠ 0 ↔
      0 < (updateCartTotal cart promo cfg).taxableSubtotal ∧
        (updateCartTotal cart promo cfg).taxableSubtotal < cfg.smallOrderFeeThreshold)
    ∧ (0 < (updateCartTotal cart promo cfg).taxableSubtotal ∧
        (updateCartTotal cart promo cfg).taxableSubtotal < cfg.smallOrderFeeThreshold →
        (updateCartTotal cart promo cfg).fee
          = ((updateCartTotal cart promo cfg).taxableSubtotal
              + (updateCartTotal cart promo cfg).tax) * (3 / 100) + 3 / 10)
    ∧ (¬ (0 < (updateCartTotal cart promo cfg).taxableSubtotal ∧
          (updateCartTotal cart promo cfg).taxableSubtotal < cfg.smallOrderFeeThreshold) →
        (updateCartTotal cart promo cfg).fee = 0)
    ∧ (updateCartTotal [⟨"Cookie", 800, 1, none⟩] none ⟨31/400, 10⟩).tax = 62/100
    ∧ (updateCartTotal [⟨"Cookie", 800, 1, none⟩] none ⟨31/400, 10⟩).fee = 5586/10000
    ∧ roundCents (updateCartTotal [⟨"Cookie", 800, 1, none⟩] none ⟨31/400, 10⟩).total
        = 918/100 := by
  have hfee := updateCartTotal_fee cart promo cfg
  have htax := updateCartTotal_tax cart promo cfg
  by_cases hc : 0 < (updateCartTotal cart promo cfg).taxableSubtotal ∧
      (updateCartTotal cart promo cfg).taxableSubtotal < cfg.smallOrderFeeThreshold
  · rw [if_pos hc] at hfee
    have hmul : 0 ≤ (updateCartTotal cart promo cfg).taxableSubtotal * cfg.taxRate :=
      mul_nonneg hc.1.le hrate
    have hpos : 0 < (updateCartTotal cart promo cfg).fee := by
      rw [hfee, htax]
      have ht := hc.1
      linarith
    exact ⟨⟨fun _ => hc, fun _ => ne_of_gt hpos⟩, fun _ => hfee,
      fun h => absurd hc h, smallOrderExample_tax, smallOrderExample_fee,
      smallOrderExample_round⟩
  · rw [if_neg hc] at hfee
    exact ⟨⟨fun h => absurd hfee h, fun h => absurd h hc⟩, fun h => absurd h hc,
      fun _ => hfee, smallOrderExample_tax, smallOrderExample_fee,
      smallOrderExample_round⟩

/-- Witness for C2: the fee rule applied at the concrete configuration with
tax rate 0 and threshold $10 on the empty cart. -/
theorem c2_fee_rule_witness :
    ((0 : ℚ) ≤ 0)
    ∧ (((updateCartTotal [] none ⟨0, 10⟩).fee ≠ 0 ↔
        0 < (updateCartTotal [] none ⟨0, 10⟩).taxableSubtotal ∧
          (updateCartTotal [] none ⟨0, 10⟩).taxableSubtotal < (10 : ℚ))
      ∧ (0 < (updateCartTotal [] none ⟨0, 10⟩).taxableSubtotal ∧
          (updateCartTotal [] none ⟨0, 10⟩).taxableSubtotal < (10 : ℚ) →
          (updateCartTotal [] none ⟨0, 10⟩).fee
            = ((updateCartTotal [] none ⟨0, 10⟩).taxableSubtotal
                + (updateCartTotal [] none ⟨0, 10⟩).tax) * (3 / 100) + 3 / 10)
      ∧ (¬ (0 < (updateCartTotal [] none ⟨0, 10⟩).taxableSubtotal ∧
            (updateCartTotal [] none ⟨0, 10⟩).taxableSubtotal < (10 : ℚ)) →
          (updateCartTotal [] none ⟨0, 10⟩).fee = 0)
      ∧ (updateCartTotal [⟨"Cookie", 800, 1, none⟩] none ⟨31/400, 10⟩).tax = 62/100
      ∧ (updateCartTotal [⟨"Cookie", 800, 1, none⟩] none ⟨31/400, 10⟩).fee = 5586/10000
      ∧ roundCents (updateCartTotal [⟨"Cookie", 800, 1, none⟩] none
          ⟨31/400, 10⟩).total = 918/100) :=
  ⟨le_refl 0, c2_fee_rule [] none ⟨0, 10⟩ (le_refl 0)⟩

/-- Claim C3: for every cart state, active promo and configuration, the price
breakdown computed for display by `updateCartTotal` and the breakdown
recomputed inside the submitted order payload by `buildOrderPayload` are
equal as whole records — the two computations are the same function of the
cart/promo/config state (in the source both perform the identical sequence
of floating-point operations, so the displayed and submitted values are
bit-for-bit equal). -/
theorem c3_breakdown_equivalence (cart : Cart) (promo : Option PromoInfo)
    (cfg : PricingConfig) :
    buildOrderPayloadAmounts cart promo cfg = updateCartTotal cart promo cfg := rfl

/-- Claim C4: for every HMAC-SHA256 primitive and secret, token issuance by
`generateUnsubscribeToken` is invariant under email normalization — the
emails " Foo@Bar.com " and "foo@bar.com" produce identical tokens (both are
lowercased and trimmed to "foo@bar.com" before hashing, and the token is the
first 32 hex characters of the HMAC); for every email,
`verifyUnsubscribeToken email (issue email)` is true; and verification is
false for every token different from the issued one. -/
theorem c4_token_service (hmacSha256 : String → String → List Nat) (secret : String) :
    generateUnsubscribeToken hmacSha256 " Foo@Bar.com " secret
      = generateUnsubscribeToken hmacSha256 "foo@bar.com" secret
    ∧ (∀ email, verifyUnsubscribeToken hmacSha256 email
        (generateUnsubscribeToken hmacSha256 email secret) secret = true)
    ∧ (∀ email token, token ≠ generateUnsubscribeToken hmacSha256 email secret →
        verifyUnsubscribeToken hmacSha256 email token secret = false) := by
  refine ⟨?_, ?_, ?_⟩
  · have h : jsTrim (jsToLowerCase " Foo@Bar.com ") = jsTrim (jsToLowerCase "foo@bar.com") := by
      decide
    simp only [generateUnsubscribeToken, h]
  · intro email
    simp [verifyUnsubscribeToken]
  · intro email token h
    exact beq_eq_false_iff_ne.mpr h

/-- Witness for C4: verification rejects the empty token for a concrete
email and secret under the sample HMAC primitive. -/
theorem c4_token_service_witness :
    verifyUnsubscribeToken hmacSample "a@b.co" "" "sek" = false :=
  (c4_token_service hmacSample "sek").2.2 "a@b.co" "" (by decide)

/-- Claim C5: for every (email, secret) pair, the token of the edge-worker
implementation (unsigned bytes, `padStart`-padded lowercase hex, first 32
characters) and the token of the Apps Script implementation (signed Java
bytes, `(b + 256) % 256` hex conversion with `slice(-2)` padding, first 32
characters) are identical strings, given that the two platforms compute the
same HMAC-SHA256 function (`hsame` relates the Apps Script primitive's
signed bytes to the worker primitive's unsigned bytes, `hbytes` states the
bytes are in range). -/
theorem c5_cross_implementation (hmac : String → String → List Nat)
    (computeHmacSignature : String → String → List Int) (email secret : String)
    (hbytes : ∀ b ∈ hmac secret (jsTrim (jsToLowerCase email)), b < 256)
    (hsame : ∀ value key, computeHmacSignature value key = (hmac key value).map byteSigned) :
    generateUnsubscribeTokenAppsScript computeHmacSignature secret email
      = generateUnsubscribeToken hmac email secret := by
  simp only [generateUnsubscribeTokenAppsScript, generateUnsubscribeToken, hexOfBytes]
  rw [hsame, hexOfBytes_signed_eq _ hbytes]

/-- Witness for C5: the cross-implementation equality at a concrete email,
secret and sample HMAC primitive whose byte values cover both signedness
ranges. -/
theorem c5_cross_implementation_witness :
    (∀ b ∈ hmacSample "sek" (jsTrim (jsToLowerCase "User@Example.com")), b < 256)
    ∧ generateUnsubscribeTokenAppsScript hmacSampleSigned "sek" "User@Example.com"
        = generateUnsubscribeToken hmacSample "User@Example.com" "sek" :=
  ⟨by decide, c5_cross_implementation hmacSample hmacSampleSigned "User@Example.com" "sek"
    (by decide) (fun _ _ => rfl)⟩

/-- Claim C6: every webhook request whose signature verification fails is
answered with status 400, with no forward to the spreadsheet sink attempted
and no sink POST issued; and every request whose signature verifies is
answered with status 200 regardless of the event type, of whether the sink
URL is configured, and of the outcome of the sink forward. -/
theorem c6_webhook_gate (message : String) (event : StripeEvent)
    (scriptUrlConfigured sinkOk : Bool) :
    handleWebhook (.failed message) scriptUrlConfigured sinkOk
      = ⟨400, false, false⟩
    ∧ (handleWebhook (.verified event) scriptUrlConfigured sinkOk).status = 200 := by
  refine ⟨rfl, ?_⟩
  by_cases h : event.type = "checkout.session.completed"
  · simp [handleWebhook, h]
  · simp [handleWebhook, h]

/-- Claim C7, counterexample to the claim as stated: starting from the empty
cart (which satisfies the invariant), `addToCart` with quantity argument 0
creates a line with quantity 0 instead of deleting it, breaking the
invariant. -/
theorem c7_cart_ops_counterexample :
    cartInvariant ([] : Cart)
    ∧ ¬ cartInvariant (addToCart "X" 100 0 none []) := by decide

/-- Claim C7 (amended): on every cart satisfying the invariant (at most one
line per product, all quantities ≥ 1), the operations `updateQuantity`,
`incrementQuantity`, `decrementQuantity` and `removeFromCart` preserve the
invariant for all inputs, and `addToCart` preserves it whenever its quantity
argument is ≥ 1. (The original claim's inclusion of quantity arguments ≤ 0
for addItem fails; see the counterexample.) -/
theorem c7_cart_ops_invariant (cart : Cart) (product : String)
    (priceCents qty : Int) (priceId : Option String) (hinv : cartInvariant cart) :
    (1 ≤ qty → cartInvariant (addToCart product priceCents qty priceId cart))
    ∧ cartInvariant (updateQuantity product qty cart)
    ∧ cartInvariant (incrementQuantity product cart)
    ∧ cartInvariant (decrementQuantity product cart)
    ∧ cartInvariant (removeFromCart product cart) := by
  refine ⟨?_, ?_, ?_, ?_, cartInvariant_removeFromCart product hinv⟩
  · intro hq
    unfold addToCart
    by_cases h : cart.any (fun it => it.product = product)
    · rw [if_pos h]
      refine cartInvariant_updateFirst hinv (fun it => rfl) ?_
      intro it0 h0 _
      have := hinv.2 it0 h0
      dsimp only
      omega
    · rw [if_neg h]
      constructor
      · rw [List.map_append, List.nodup_append]
        refine ⟨hinv.1, List.nodup_singleton _, ?_⟩
        intro a ha hb
        simp only [List.map_cons, List.map_nil, List.mem_singleton] at hb
        rw [List.mem_map] at ha
        obtain ⟨it, hit, rfl⟩ := ha
        exact h (List.any_eq_true.mpr ⟨it, hit, decide_eq_true hb⟩)
      · intro it hit
        rcases List.mem_append.mp hit with h1 | h1
        · exact hinv.2 it h1
        · rw [List.mem_singleton] at h1
          rw [h1]
          exact hq
  · unfold updateQuantity
    by_cases h : qty ≤ 0
    · rw [if_pos h]
      exact cartInvariant_removeFromCart product hinv
    · rw [if_neg h]
      refine cartInvariant_updateFirst hinv (fun it => rfl) ?_
      intro it0 _ _
      dsimp only
      omega
  · unfold incrementQuantity
    cases hfind : cart.find? (fun it => it.product = product) with
    | none => exact hinv
    | some it0 =>
      refine cartInvariant_updateFirst hinv (fun it => rfl) ?_
      intro it1 h1 _
      have := hinv.2 it1 h1
      dsimp only
      omega
  · unfold decrementQuantity
    cases hfind : cart.find? (fun it => it.product = product) with
    | none => exact hinv
    | some it0 =>
      dsimp only
      by_cases hq0 : it0.qty ≤ 1
      · rw [if_pos hq0]
        exact cartInvariant_removeFromCart product hinv
      · rw [if_neg hq0]
        refine cartInvariant_updateFirst hinv (fun it => rfl) ?_
        intro it1 h1 hp1
        have hmem0 := List.mem_of_find?_eq_some hfind
        have hp0 : it0.product = product := by
          have := List.find?_some hfind
          simpa using this
        have heq : it1 = it0 :=
          List.inj_on_of_nodup_map hinv.1 h1 hmem0 (by rw [hp1, hp0])
        dsimp only
        rw [heq]
        omega

/-- Witness for C7: the amended theorem applied to a concrete one-line cart
with quantity argument 1. -/
theorem c7_cart_ops_invariant_witness :
    cartInvariant ([⟨"X", 100, 2, none⟩] : Cart)
    ∧ ((1 ≤ (1 : Int) → cartInvariant (addToCart "X" 100 1 none [⟨"X", 100, 2, none⟩]))
      ∧ cartInvariant (updateQuantity "X" 1 [⟨"X", 100, 2, none⟩])
      ∧ cartInvariant (incrementQuantity "X" [⟨"X", 100, 2, none⟩])
      ∧ cartInvariant (decrementQuantity "X" [⟨"X", 100, 2, none⟩])
      ∧ cartInvariant (removeFromCart "X" [⟨"X", 100, 2, none⟩])) :=
  ⟨by decide, c7_cart_ops_invariant _ "X" 100 1 none (by decide)⟩

/-- Claim C8, counterexample to the claim as stated: on a cart already
containing product "X" with quantity 1, `addToCart` merges into the existing
line (quantity 2) and `removeFromCart` then deletes the whole line, so the
round trip empties the cart instead of restoring the prior state. -/
theorem c8_round_trip_counterexample :
    removeFromCart "X" (addToCart "X" 350 1 none [⟨"X", 350, 1, none⟩]) = []
    ∧ removeFromCart "X" (addToCart "X" 350 1 none [⟨"X", 350, 1, none⟩])
        ≠ [⟨"X", 350, 1, none⟩] := by decide

/-- Claim C8 (amended): for every cart that contains no line for product p,
`addToCart p price 1` followed by `removeFromCart p` returns the cart
unchanged — in particular the empty cart stays empty. (The original claim's
quantification over all carts fails on carts already containing p; see the
counterexample.) -/
theorem c8_add_remove_round_trip (cart : Cart) (product : String)
    (priceCents : Int) (h : ∀ it ∈ cart, it.product ≠ product) :
    removeFromCart product (addToCart product priceCents 1 none cart) = cart := by
  have hany : cart.any (fun it => it.product = product) = false := by
    rw [List.any_eq_false]
    intro it hit
    simp [h it hit]
  unfold addToCart
  rw [hany]
  simp only [Bool.false_eq_true, if_false]
  unfold removeFromCart
  rw [List.filter_append]
  have h1 : cart.filter (fun it => it.product ≠ product) = cart :=
    List.filter_eq_self.mpr (fun it hit => by simpa using h it hit)
  have h2 : (([⟨product, priceCents, 1, none⟩] : Cart).filter
      (fun it => it.product ≠ product)) = [] := by
    simp
  rw [h1, h2, List.append_nil]

/-- Witness for C8: the amended round trip on a concrete cart holding a
different product. -/
theorem c8_add_remove_round_trip_witness :
    (∀ it ∈ ([⟨"Snickerdoodle", 200, 1, none⟩] : Cart), it.product ≠ "X")
    ∧ removeFromCart "X" (addToCart "X" 350 1 none [⟨"Snickerdoodle", 200, 1, none⟩])
        = [⟨"Snickerdoodle", 200, 1, none⟩] :=
  ⟨by decide, c8_add_remove_round_trip _ "X" 350 (by decide)⟩

/-- Claim C9: for every fetched calendar feed body, title filter and
invocation instant, the slot list returned by `fetchAndParseCalendar`
contains only slots whose start instant is strictly after the instant of
invocation, and the list is sorted in ascending order of start instant. -/
theorem c9_future_sorted_slots (icalData eventTitle : String) (now : Int) :
    (∀ s ∈ fetchAndParseCalendar icalData eventTitle now, now < s.startTs)
    ∧ (fetchAndParseCalendar icalData eventTitle now).Pairwise
        (fun s t => s.startTs ≤ t.startTs) := by
  simp only [fetchAndParseCalendar]
  constructor
  · intro s hs
    rw [List.mem_map] at hs
    obtain ⟨e, he, rfl⟩ := hs
    rw [List.mem_mergeSort, List.mem_filter] at he
    obtain ⟨-, hpred⟩ := he
    rw [formatSlot_startTs]
    cases hsd : e.startDate with
    | none => rw [hsd] at hpred; simp at hpred
    | some d =>
      rw [hsd] at hpred
      simp only [decide_eq_true_eq] at hpred
      simpa [hsd] using hpred
  · refine List.Pairwise.map _ ?_ (List.sorted_mergeSort ?_ ?_ _)
    · intro a b hab
      simp only [decide_eq_true_eq] at hab
      simpa [formatSlot_startTs] using hab
    · intro a b c hab hbc
      simp only [decide_eq_true_eq] at hab hbc ⊢
      exact le_trans hab hbc
    · intro a b
      rcases le_total (a.startDate.getD 0) (b.startDate.getD 0) with h | h <;> simp [h]

/-- Claim C10: when the configured allowed-origins value is exactly the
string "*", `isOriginAllowed` accepts every request — including a request
with no Origin header (`none`) — because the wildcard test precedes the
null-origin check, the allow-list lookup and the trusted-domain suffix
match; consequently the `POST /session` gate never produces the 403
outcome. -/
theorem c10_wildcard_origin (origin : Option String) :
    isOriginAllowed origin "*" = true
    ∧ sessionOriginGate origin "*" = SessionRouteOutcome.proceedToCreateSession := by
  have h : isOriginAllowed origin "*" = true := by
    unfold isOriginAllowed
    rw [if_pos rfl]
  refine ⟨h, ?_⟩
  unfold sessionOriginGate
  rw [h]
  rfl
